import Mathlib

/-!
Verification development for the YASK stencil compiler driver
(src/compiler/compiler_main.cpp) and the stencil runtime header
(src/stencil_calc.hpp).

The command-line driver is embedded as pure functions over explicit state:
the globals of compiler_main.cpp (settings, outfiles, solutionName, radius,
vlenForStats) become the fields of ParseState; the option-scanning for-loop
of parseOpts becomes the recursive function parseLoop; the tail of
parseOpts (solution lookup, radius handling, define) becomes finishParse;
main becomes runMain, which returns the observable outcome of the process:
exit code, stderr lines, whether the help text was printed on stdout, and
the list of emitted artifacts.

Code of the repository that is not part of the two source files (the DSL
solutions behind the registry, the compiler library called through
yc_solution/yask_output factories, the generated loop bodies included by
stencil_calc.hpp) is modelled from the spec; every such definition carries
a doc comment starting with: Modelled from the spec.
-/

namespace Yask

/-! ## String order and string-keyed maps (model of std::map with string keys) -/

/-- Lexicographic order on character lists by code point, the model of the
std::less ordering that std::map uses for its keys (the keys in play are
ASCII option and format names, where byte order and code-point order agree). -/
def strLtB : List Char → List Char → Bool
  | [], [] => false
  | [], _ :: _ => true
  | _ :: _, [] => false
  | c :: cs, d :: ds =>
    if c.toNat < d.toNat then true
    else if d.toNat < c.toNat then false
    else strLtB cs ds

/-- Lexicographic order on strings, see strLtB. -/
def strLt (a b : String) : Bool := strLtB a.data b.data

/-- Lookup in an association list, the model of std::map::find / count. -/
def lookupS {α : Type} : List (String × α) → String → Option α
  | [], _ => none
  | (k0, v0) :: rest, k => if k = k0 then some v0 else lookupS rest k

/-- Ordered insert-or-assign, the model of the std::map subscript assignment
map[k] = v: if the key is present its mapped value is replaced, otherwise
the pair is inserted at its ordered position. -/
def mapInsert {α : Type} : List (String × α) → String → α → List (String × α)
  | [], k, v => [(k, v)]
  | (k0, v0) :: rest, k, v =>
    if k = k0 then (k0, v) :: rest
    else if strLt k k0 then (k, v) :: (k0, v0) :: rest
    else (k0, v0) :: mapInsert rest k v

/-! ## C standard library atoi -/

/-- Digit-accumulation loop of atoi. -/
def atoiAcc : List Char → Int → Int
  | [], acc => acc
  | c :: rest, acc =>
    if c.isDigit then atoiAcc rest (acc * 10 + ((c.toNat : Int) - 48)) else acc

/-- Model of the C library atoi used by parseOpts for the integer-valued
options: skip leading whitespace, read an optional sign, then accumulate
decimal digits, stopping at the first non-digit; no digits yields 0. -/
def atoi (s : String) : Int :=
  let cs := s.data.dropWhile (fun c =>
    c == ' ' || c == '\t' || c == '\n' || c == '\x0b' || c == '\x0c' || c == '\r')
  match cs with
  | '-' :: rest => - atoiAcc rest 0
  | '+' :: rest => atoiAcc rest 0
  | _ => atoiAcc cs 0

/-! ## Settings record and parser state (globals of compiler_main.cpp) -/

/-- Modelled from the spec: ArgParser parseList splits a comma-separated
list of names (used by -domain-dims); the ArgParser class is not among the
source files. -/
def parseListVals (s : String) : List String := s.splitOn ","

/-- Modelled from the spec: ArgParser parseKeyValuePairs splits a
comma-separated list of key=value items, converting each value with atoi
as the -fold and -cluster handlers do; ArgParser itself is not among the
source files. -/
def parseKVPairs (s : String) : List (String × Int) :=
  (s.splitOn ",").map (fun kv =>
    match kv.splitOn "=" with
    | k :: v :: _ => (k, atoi v)
    | _ => (kv, 0))

/-- The CompilerSettings fields that parseOpts assigns (compiler_main.cpp
lines 232-358).  The field names follow the source. -/
structure CompilerSettings where
  _varRegex : String
  _eqBundleTargets : String
  _stepDim : String
  _domainDims : List String
  _foldOptions : List (String × Int)
  _clusterOptions : List (String × Int)
  _elem_bytes : Int
  _maxExprSize : Int
  _minExprSize : Int
  _haloSize : Int
  _stepAlloc : Int
  _firstInner : Bool
  _allowUnalignedLoads : Bool
  _doComb : Bool
  _doCse : Bool
  _doPairs : Bool
  _doOptCluster : Bool
  _findDeps : Bool
  _bundleScratch : Bool
  _printEqs : Bool
  _innerMisc : Bool
  deriving DecidableEq, Repr

/-- Modelled from the spec: the defaults of the settings record, section
6.2 of the spec (the CompilerSettings constructor lives in the compiler
library, not among the source files).  halo=auto and step_alloc=auto are
carried as 0, the library convention for automatic sizing. -/
def initSettings : CompilerSettings :=
  { _varRegex := ".*"
    _eqBundleTargets := ""
    _stepDim := ""
    _domainDims := []
    _foldOptions := []
    _clusterOptions := []
    _elem_bytes := 4
    _maxExprSize := 50
    _minExprSize := 2
    _haloSize := 0
    _stepAlloc := 0
    _firstInner := false
    _allowUnalignedLoads := false
    _doComb := true
    _doCse := true
    _doPairs := true
    _doOptCluster := true
    _findDeps := true
    _bundleScratch := false
    _printEqs := false
    _innerMisc := false }

/-- Modelled from the spec: a registered DSL solution as seen through the
driver.  The DSL solutions are external collaborators (spec section 1), so
the behaviour the driver observes is abstracted: whether the solution is
radius-parameterized (the dynamic_cast to yc_solution_with_radius_base
succeeds), its current default radius, whether set_radius accepts a given
value, whether define() completes or raises a yask_exception with the
given message, and whether format() succeeds for a given format tag. -/
structure Solution where
  hasRadius : Bool
  defaultRadius : Int
  radiusOk : Int → Bool
  defineOk : Bool
  defineMsg : String
  formatOk : String → Bool

/-- The mutable globals of compiler_main.cpp lines 50-58 that parseOpts
updates: settings, outfiles, solutionName, radius, vlenForStats. -/
structure ParseState where
  settings : CompilerSettings
  outfiles : List (String × String)
  solutionName : String
  radius : Int
  vlenForStats : Int
  deriving DecidableEq, Repr

/-- Initial values of the globals (compiler_main.cpp lines 50-58). -/
def initialState : ParseState :=
  { settings := initSettings
    outfiles := []
    solutionName := ""
    radius := -1
    vlenForStats := 0 }

/-- The process environment of one compiler invocation: the stencil
registry populated by static construction before main runs, and (Modelled
from the spec, error kind OutputIOError) which file names the
yask_output_factory can open for writing. -/
structure Env where
  stencils : List (String × Solution)
  fileOk : String → Bool

/-! ## The option-scanning loop of parseOpts (compiler_main.cpp 218-374) -/

/-- Test of compiler_main.cpp line 225: argv[argi][0] is a dash and
argv[argi][1] is not the terminating NUL, i.e. the argument starts with a
dash and has at least two characters. -/
def isOptArg (a : String) : Bool :=
  match a.data with
  | '-' :: _ :: _ => true
  | _ => false

/-- The help aliases of compiler_main.cpp line 229. -/
def isHelpOpt (opt : String) : Bool :=
  opt == "-h" || opt == "-help" || opt == "--help"

/-- The value-less flag options of compiler_main.cpp lines 232-271. -/
def isFlagOpt (opt : String) : Bool :=
  opt == "-fus" || opt == "-lus" ||
  opt == "-ul" || opt == "-no-ul" ||
  opt == "-opt-comb" || opt == "-no-opt-comb" ||
  opt == "-opt-cse" || opt == "-no-opt-cse" ||
  opt == "-opt-pair" || opt == "-no-opt-pair" ||
  opt == "-opt-cluster" || opt == "-no-opt-cluster" ||
  opt == "-find-deps" || opt == "-no-find-deps" ||
  opt == "-bundle-scratch" || opt == "-no-bundle-scratch" ||
  opt == "-print-eqs" || opt == "-no-print-eqs" ||
  opt == "-interleave-misc" || opt == "-no-interleave-misc"

/-- Effect of one value-less flag option on the settings
(compiler_main.cpp lines 232-271). -/
def applyFlag (opt : String) (s : CompilerSettings) : CompilerSettings :=
  if opt = "-fus" then { s with _firstInner := true }
  else if opt = "-lus" then { s with _firstInner := false }
  else if opt = "-ul" then { s with _allowUnalignedLoads := true }
  else if opt = "-no-ul" then { s with _allowUnalignedLoads := false }
  else if opt = "-opt-comb" then { s with _doComb := true }
  else if opt = "-no-opt-comb" then { s with _doComb := false }
  else if opt = "-opt-cse" then { s with _doCse := true }
  else if opt = "-no-opt-cse" then { s with _doCse := false }
  else if opt = "-opt-pair" then { s with _doPairs := true }
  else if opt = "-no-opt-pair" then { s with _doPairs := false }
  else if opt = "-opt-cluster" then { s with _doOptCluster := true }
  else if opt = "-no-opt-cluster" then { s with _doOptCluster := false }
  else if opt = "-find-deps" then { s with _findDeps := true }
  else if opt = "-no-find-deps" then { s with _findDeps := false }
  else if opt = "-bundle-scratch" then { s with _bundleScratch := true }
  else if opt = "-no-bundle-scratch" then { s with _bundleScratch := false }
  else if opt = "-print-eqs" then { s with _printEqs := true }
  else if opt = "-no-print-eqs" then { s with _printEqs := false }
  else if opt = "-interleave-misc" then { s with _innerMisc := true }
  else if opt = "-no-interleave-misc" then { s with _innerMisc := false }
  else s

/-- Effect of one single-valued option opt with value argop on the parser
state (compiler_main.cpp lines 286-359, excluding -p which takes two
values); none means the option is not recognized (line 362). -/
def valueOptUpdate (st : ParseState) (opt argop : String) : Option ParseState :=
  if opt = "-stencil" then some { st with solutionName := argop }
  else if opt = "-vars" then
    some { st with settings := { st.settings with _varRegex := argop } }
  else if opt = "-eq-bundles" then
    some { st with settings := { st.settings with _eqBundleTargets := argop } }
  else if opt = "-step-dim" then
    some { st with settings := { st.settings with _stepDim := argop } }
  else if opt = "-domain-dims" then
    some { st with settings := { st.settings with _domainDims := parseListVals argop } }
  else if opt = "-fold" then
    some { st with settings :=
      { st.settings with _foldOptions := st.settings._foldOptions ++ parseKVPairs argop } }
  else if opt = "-cluster" then
    some { st with settings :=
      { st.settings with _clusterOptions := st.settings._clusterOptions ++ parseKVPairs argop } }
  else
    let val := atoi argop
    if opt = "-max-es" then
      some { st with settings := { st.settings with _maxExprSize := val } }
    else if opt = "-min-es" then
      some { st with settings := { st.settings with _minExprSize := val } }
    else if opt = "-radius" then some { st with radius := val }
    else if opt = "-elem-bytes" then
      some { st with settings := { st.settings with _elem_bytes := val } }
    else if opt = "-ps" then some { st with vlenForStats := val }
    else if opt = "-halo" then
      some { st with settings := { st.settings with _haloSize := val } }
    else if opt = "-step-alloc" then
      some { st with settings := { st.settings with _stepAlloc := val } }
    else none

/-- Outcome of the option-scanning loop: the loop either consumes every
argument and falls through to the post-loop checks (done), stops with an
error line on stderr followed by usage() which exits (err), or hits a help
option, printing usage() and exiting with no stderr line (help).  A
non-option argument makes the loop break at line 369, and the check at
line 371 then always fires, so it is folded into the err case. -/
inductive LoopOut where
  | done (st : ParseState)
  | err (msg : String)
  | help
  deriving DecidableEq, Repr

/-- The option-scanning for-loop of parseOpts (compiler_main.cpp lines
224-374), including the unrecognized-parameter check after the loop. -/
def parseLoop (st : ParseState) : List String → LoopOut
  | [] => .done st
  | a :: rest =>
    if isOptArg a = false then
      .err ("Error: unrecognized parameter \x27" ++ a ++ "\x27.")
    else if isHelpOpt a then .help
    else if isFlagOpt a then parseLoop { st with settings := applyFlag a st.settings } rest
    else
      match rest with
      | [] => .err ("Error: value missing or bad option \x27" ++ a ++ "\x27.")
      | v :: rest2 =>
        if a = "-p" then
          match rest2 with
          | [] => .err ("Error: filename missing after \x27" ++ a ++ " " ++ v ++ "\x27.")
          | f :: rest3 =>
            parseLoop { st with outfiles := mapInsert st.outfiles v f } rest3
        else
          match valueOptUpdate st a v with
          | some st2 => parseLoop st2 rest2
          | none => .err ("Error: option \x27" ++ a ++ "\x27 not recognized.")

/-! ## The tail of parseOpts and main (compiler_main.cpp 375-454) -/

/-- Radius handling of compiler_main.cpp lines 392-404: when the solution
is radius-parameterized and a non-negative radius was given, set_radius is
applied; on rejection the driver prints the invalid-radius error and calls
usage().  The result carries the effective radius of the solution. -/
def applyRadius (sol : Solution) (radius : Int) (solutionName : String) :
    Except String Int :=
  if sol.hasRadius then
    if 0 ≤ radius then
      if sol.radiusOk radius then Except.ok radius
      else Except.error ("Error: invalid radius=" ++ toString radius ++
        " for stencil type \x27" ++ solutionName ++ "\x27.")
    else Except.ok sol.defaultRadius
  else Except.ok sol.defaultRadius

/-- Outcome of parseOpts as observed by main: a usage error (stderr line,
help text, exit 1), a plain help exit (help text, exit 1), a propagated
yask_exception (caught in main, line 447), or success carrying the chosen
solution, the final parser state and the effective radius. -/
inductive ParseOutcome where
  | usageError (msg : String)
  | help
  | thrown (msg : String)
  | ok (sol : Solution) (st : ParseState) (effRadius : Int)

/-- The checks after the scanning loop (compiler_main.cpp lines 375-417):
solution specified, solution registered, radius handling, then define(),
whose yask_exception propagates out of parseOpts. -/
def finishParse (stencils : List (String × Solution)) (st : ParseState) : ParseOutcome :=
  if st.solutionName.length = 0 then .usageError "Error: solution not specified."
  else
    match lookupS stencils st.solutionName with
    | none => .usageError ("Error: unknown stencil solution \x27" ++ st.solutionName ++ "\x27.")
    | some sol =>
      match applyRadius sol st.radius st.solutionName with
      | Except.error msg => .usageError msg
      | Except.ok effR =>
        if sol.defineOk then .ok sol st effR
        else .thrown sol.defineMsg

/-- parseOpts (compiler_main.cpp lines 218-417): with no arguments usage()
is called directly (line 220), else the scanning loop runs and the
post-loop checks follow. -/
def parseOpts (stencils : List (String × Solution)) (args : List String) : ParseOutcome :=
  if args.isEmpty then .help
  else
    match parseLoop initialState args with
    | .err msg => .usageError msg
    | .help => .help
    | .done st => finishParse stencils st

/-- Destination of one emitted artifact: a dash filename selects
new_stdout_output, any other name new_file_output (main, lines 441-444). -/
inductive Dest where
  | stdout
  | file (name : String)
  deriving DecidableEq, Repr

/-- Destination selected for a given filename (main, lines 441-444). -/
def destOf (fname : String) : Dest :=
  if fname = "-" then Dest.stdout else Dest.file fname

/-- Modelled from the spec: element-size validation.  The usage text
(compiler_main.cpp lines 113-115) states that only 4 and 8 are allowed for
-elem-bytes; the enforcing code lives in the compiler library invoked via
format(), not among the source files, so it is modelled here as a check
performed when output is generated. -/
def elemBytesValid (s : CompilerSettings) : Bool :=
  s._elem_bytes == 4 || s._elem_bytes == 8

/-- Modelled from the spec: one format(type, os) call (main, line 445).
The library rejects an invalid element size and unknown or failing
formats by raising a yask_exception. -/
def formatTo (sol : Solution) (stg : CompilerSettings) (fmt : String) (dest : Dest) :
    Except String Dest :=
  if elemBytesValid stg = false then
    Except.error ("Error: only 4 and 8 are allowed for elem-bytes, got " ++
      toString stg._elem_bytes)
  else if sol.formatOk fmt then Except.ok dest
  else Except.error ("Error: format type \x27" ++ fmt ++ "\x27 not supported")

/-- One iteration of the output loop of main (lines 435-446): open the
sink for the pair (format, filename), then format into it. -/
def emitOne (env : Env) (sol : Solution) (stg : CompilerSettings)
    (fmt fname : String) : Except String Dest :=
  if fname = "-" then formatTo sol stg fmt Dest.stdout
  else if env.fileOk fname then formatTo sol stg fmt (Dest.file fname)
  else Except.error ("Error: cannot open \x27" ++ fname ++ "\x27 for output")

/-- The output loop of main (lines 435-446) over the outfiles map, in its
iteration order: artifacts emitted before the first failure, paired with
the message of the yask_exception that stopped the loop, if any. -/
def emitAll (env : Env) (sol : Solution) (stg : CompilerSettings) :
    List (String × String) → List (String × Dest) × Option String
  | [] => ([], none)
  | (fmt, fname) :: rest =>
    match emitOne env sol stg fmt fname with
    | Except.error msg => ([], some msg)
    | Except.ok d =>
      let r := emitAll env sol stg rest
      ((fmt, d) :: r.1, r.2)

/-- Observable outcome of one process invocation: the exit code, the lines
printed to stderr, whether the help text of usage() was printed to stdout,
and the artifacts written, in order. -/
structure ProcResult where
  exitCode : Int
  stderrLines : List String
  helpShown : Bool
  artifacts : List (String × Dest)
  deriving DecidableEq, Repr

/-- main (compiler_main.cpp lines 420-454): parse the options, then emit
each requested format; a usage() call exits 1 after printing the help text
on stdout; a yask_exception is reported on stderr prefixed with the tool
name and exits 1; otherwise main returns 0. -/
def runMain (env : Env) (_cmd : String) (args : List String) : ProcResult :=
  match parseOpts env.stencils args with
  | .usageError msg =>
    { exitCode := 1, stderrLines := [msg], helpShown := true, artifacts := [] }
  | .help =>
    { exitCode := 1, stderrLines := [], helpShown := true, artifacts := [] }
  | .thrown msg =>
    { exitCode := 1, stderrLines := ["YASK Stencil Compiler: " ++ msg ++ "."],
      helpShown := false, artifacts := [] }
  | .ok sol st _ =>
    let r := emitAll env sol st.settings st.outfiles
    match r.2 with
    | some msg =>
      { exitCode := 1, stderrLines := ["YASK Stencil Compiler: " ++ msg ++ "."],
        helpShown := false, artifacts := r.1 }
    | none =>
      { exitCode := 0, stderrLines := [], helpShown := false, artifacts := r.1 }

/-! ## Statement helpers for the parser claims -/

/-- Final value of the solutionName global along the scanning loop: the
same control flow as parseLoop, tracking only solutionName (on paths where
the loop errors out the value is irrelevant). -/
def scanSolutionName (cur : String) : List String → String
  | [] => cur
  | a :: rest =>
    if isOptArg a = false then cur
    else if isHelpOpt a then cur
    else if isFlagOpt a then scanSolutionName cur rest
    else
      match rest with
      | [] => cur
      | v :: rest2 =>
        if a = "-p" then
          match rest2 with
          | [] => cur
          | _ :: rest3 => scanSolutionName cur rest3
        else if a = "-stencil" then scanSolutionName v rest2
        else scanSolutionName cur rest2

/-- Command-line fragment carrying one -p FORMAT FILE triple per pair. -/
def pArgs (ps : List (String × String)) : List String :=
  ps.flatMap (fun p => [ "-p", p.1, p.2 ])

/-- Spec-side description of the last-wins rule for repeated -p pairs with
the same format: the file of the last pair naming that format. -/
def lastFileFor (ps : List (String × String)) (fmt : String) : Option String :=
  (ps.reverse.find? (fun p => p.1 == fmt)).map Prod.snd

/-! ## Solution registration (compiler_main.cpp 69-78, claim C9) -/

/-- Constructor yc_solution_base::yc_solution_base (compiler_main.cpp
lines 69-78): if the name is already registered (stencils.count(name) is
nonzero, i.e. lookup succeeds) a yask_exception is thrown before the map
is touched; otherwise the new solution is added under its name.  The
result pairs the exception status with the registry after the call. -/
def yc_solution_base_ctor (name : String) (soln : Solution)
    (stencils : List (String × Solution)) :
    Except String Unit × List (String × Solution) :=
  if (lookupS stencils name).isSome then
    (Except.error ("Error: stencil \x27" ++ name ++ "\x27 already defined"), stencils)
  else (Except.ok (), mapInsert stencils name soln)

/-! ## Block and cluster loops (stencil_calc.hpp, claim C8) -/

/-- Truncating integer division, the idiv template used by calc_block. -/
def idiv (a b : Int) : Int := Int.tdiv a b

/-- Fuel-driven stepping loop: from b, while the index is below e, emit
the chunk from the index to min(index + step, e) and advance by step. -/
def loopChunksF : Nat → Int → Int → Int → List (Int × Int)
  | 0, _, _, _ => []
  | fuel + 1, b, e, step =>
    if b < e then (b, min (b + step) e) :: loopChunksF fuel (b + step) e step
    else []

/-- Modelled from the spec: the generated block-loop code included at
stencil_calc.hpp line 249 (stencil_block_loops.hpp is produced by the loop
generator and is not among the source files).  The spec states that the
cluster tuple multiplies the per-dimension step, so each dimension is
walked from its begin index to its end index in steps of the given step
value, each iteration covering the chunk up to min(index + step, end).
The fuel (e - b) suffices for any positive step. -/
def loopChunks (b e step : Int) : List (Int × Int) :=
  loopChunksF (e - b).toNat b e step

/-- Per-dimension vector lengths VLEN_* and cluster lengths CLEN_*, the
compile-time constants of the generated stencil code. -/
structure BlockDims where
  vlenN : Int
  vlenX : Int
  vlenY : Int
  vlenZ : Int
  clenN : Int
  clenX : Int
  clenY : Int
  clenZ : Int
  deriving DecidableEq, Repr

/-- Argument tuple of one calc_cluster invocation (stencil_calc.hpp lines
178-180): the begin and end vector indices per dimension. -/
structure ClusterInv where
  beginCnv : Int
  beginCxv : Int
  beginCyv : Int
  beginCzv : Int
  endCnv : Int
  endCxv : Int
  endCyv : Int
  endCzv : Int
  deriving DecidableEq, Repr

/-- calc_block (stencil_calc.hpp lines 219-251): divide the block bounds
by the vector lengths (lines 227-234), set the per-dimension step to the
cluster length (lines 237-240), and run the generated loops, collecting
the calc_cluster invocations they make. -/
def calc_block (d : BlockDims)
    (begin_bn begin_bx begin_by begin_bz end_bn end_bx end_by end_bz : Int) :
    List ClusterInv :=
  let begin_bnv := idiv begin_bn d.vlenN
  let begin_bxv := idiv begin_bx d.vlenX
  let begin_byv := idiv begin_by d.vlenY
  let begin_bzv := idiv begin_bz d.vlenZ
  let end_bnv := idiv end_bn d.vlenN
  let end_bxv := idiv end_bx d.vlenX
  let end_byv := idiv end_by d.vlenY
  let end_bzv := idiv end_bz d.vlenZ
  (loopChunks begin_bnv end_bnv d.clenN).flatMap (fun pn =>
    (loopChunks begin_bxv end_bxv d.clenX).flatMap (fun px =>
      (loopChunks begin_byv end_byv d.clenY).flatMap (fun py =>
        (loopChunks begin_bzv end_bzv d.clenZ).map (fun pz =>
          { beginCnv := pn.1, beginCxv := px.1, beginCyv := py.1, beginCzv := pz.1,
            endCnv := pn.2, endCxv := px.2, endCyv := py.2, endCzv := pz.2 }))))

/-- The assertions of calc_cluster (stencil_calc.hpp lines 189-192): each
end index equals the begin index plus the cluster length. -/
def calc_cluster_asserts (d : BlockDims) (iv : ClusterInv) : Bool :=
  (iv.endCnv == iv.beginCnv + d.clenN) && (iv.endCxv == iv.beginCxv + d.clenX) &&
  (iv.endCyv == iv.beginCyv + d.clenY) && (iv.endCzv == iv.beginCzv + d.clenZ)

/-! ## StencilContext::compare (stencil_calc.hpp 80-94, claim C10) -/

/-- A grid as seen by StencilContext::compare: RealvGridBase is declared
elsewhere, and compare only calls get_name and the virtual per-grid
compare, which is passed as a parameter below. -/
structure Grid where
  name : String
  deriving DecidableEq, Repr

/-- Default grid for out-of-range getD reads (never reached when the index
is in range). -/
def defaultGrid : Grid := { name := "" }

/-- The context fields that compare touches (stencil_calc.hpp 29-44). -/
structure StencilContext where
  name : String
  gridPtrs : List Grid
  deriving DecidableEq, Repr

/-- StencilContext::compare (stencil_calc.hpp lines 80-94): loop gi over
the grids of the calling context, counting 1 when gi is past the end of
the reference grid list and otherwise adding the per-grid mis-compare
count gcmp (the virtual RealvGridBase::compare, kept abstract). -/
def StencilContext.compare (gcmp : Grid → Grid → Nat)
    (self ref : StencilContext) : Nat :=
  (List.range self.gridPtrs.length).foldl
    (fun errs gi =>
      if ref.gridPtrs.length ≤ gi then errs + 1
      else errs + gcmp (self.gridPtrs.getD gi defaultGrid) (ref.gridPtrs.getD gi defaultGrid))
    0

/-! ## Concrete fixtures for witnesses and counterexamples -/

/-- A registered solution that accepts everything. -/
def sol0 : Solution :=
  { hasRadius := false, defaultRadius := 0, radiusOk := fun _ => true,
    defineOk := true, defineMsg := "", formatOk := fun _ => true }

/-- A radius-parameterized solution whose set_radius accepts radii up to 3. -/
def solR : Solution :=
  { hasRadius := true, defaultRadius := 2, radiusOk := fun r => decide (r ≤ 3),
    defineOk := true, defineMsg := "", formatOk := fun _ => true }

/-- Environment with one registered solution named s and a writable
filesystem. -/
def env0 : Env := { stencils := [("s", sol0)], fileOk := fun _ => true }

/-- Environment with one radius-parameterized solution named r. -/
def envR : Env := { stencils := [("r", solR)], fileOk := fun _ => true }

/-- Environment with an empty registry. -/
def envEmpty : Env := { stencils := [], fileOk := fun _ => false }

/-! ## Lemmas on the string order -/

theorem char_toNat_inj {c d : Char} (h : c.toNat = d.toNat) : c = d := by
  have h2 := congrArg Char.ofNat h
  rwa [Char.ofNat_toNat, Char.ofNat_toNat] at h2

theorem strLtB_irrefl (a : List Char) : strLtB a a = false := by
  induction a with
  | nil => rfl
  | cons c cs ih => simp [strLtB, ih]

theorem strLtB_trans {a b c : List Char} (h1 : strLtB a b = true)
    (h2 : strLtB b c = true) : strLtB a c = true := by
  induction a generalizing b c with
  | nil =>
    cases b with
    | nil => simp [strLtB] at h1
    | cons d ds =>
      cases c with
      | nil => simp [strLtB] at h2
      | cons e es => simp [strLtB]
  | cons x xs ih =>
    cases b with
    | nil => simp [strLtB] at h1
    | cons d ds =>
      cases c with
      | nil => simp [strLtB] at h2
      | cons e es =>
        by_cases hxd : x.toNat < d.toNat
        · by_cases hde : d.toNat < e.toNat
          · have hxe : x.toNat < e.toNat := Nat.lt_trans hxd hde
            simp [strLtB, hxe]
          · by_cases hed : e.toNat < d.toNat
            · simp [strLtB, hde, hed] at h2
            · have hxe : x.toNat < e.toNat := by omega
              simp [strLtB, hxe]
        · by_cases hdx : d.toNat < x.toNat
          · simp [strLtB, hxd, hdx] at h1
          · simp only [strLtB, if_neg hxd, if_neg hdx] at h1
            by_cases hde : d.toNat < e.toNat
            · have hxe : x.toNat < e.toNat := by omega
              simp [strLtB, hxe]
            · by_cases hed : e.toNat < d.toNat
              · simp [strLtB, hde, hed] at h2
              · simp only [strLtB, if_neg hde, if_neg hed] at h2
                have h3 := ih h1 h2
                have hxe1 : ¬ x.toNat < e.toNat := by omega
                have hxe2 : ¬ e.toNat < x.toNat := by omega
                simp [strLtB, hxe1, hxe2, h3]

theorem strLtB_total (a b : List Char) :
    a = b ∨ strLtB a b = true ∨ strLtB b a = true := by
  induction a generalizing b with
  | nil => cases b <;> simp [strLtB]
  | cons x xs ih =>
    cases b with
    | nil => simp [strLtB]
    | cons d ds =>
      rcases Nat.lt_trichotomy x.toNat d.toNat with h | h | h
      · right; left; simp [strLtB, h]
      · have hxd : x = d := char_toNat_inj h
        subst hxd
        rcases ih ds with h2 | h2 | h2
        · left; rw [h2]
        · right; left; simp [strLtB, h2]
        · right; right; simp [strLtB, h2]
      · right; right; simp [strLtB, h]

theorem strLt_irrefl (a : String) : strLt a a = false := strLtB_irrefl a.data

theorem strLt_trans {a b c : String} (h1 : strLt a b = true)
    (h2 : strLt b c = true) : strLt a c = true := strLtB_trans h1 h2

theorem strLt_total (a b : String) : a = b ∨ strLt a b = true ∨ strLt b a = true := by
  rcases strLtB_total a.data b.data with h | h | h
  · exact Or.inl (String.ext h)
  · exact Or.inr (Or.inl h)
  · exact Or.inr (Or.inr h)

theorem strLt_ne {a b : String} (h : strLt a b = true) : a ≠ b := by
  intro he
  subst he
  rw [strLt_irrefl a] at h
  cases h

/-! ## Lemmas on the string-keyed map -/

theorem lookupS_mapInsert_self {α : Type} (m : List (String × α)) (k : String) (v : α) :
    lookupS (mapInsert m k v) k = some v := by
  induction m with
  | nil => simp [mapInsert, lookupS]
  | cons p rest ih =>
    obtain ⟨k0, v0⟩ := p
    by_cases h : k = k0
    · subst h; simp [mapInsert, lookupS]
    · by_cases h2 : strLt k k0 = true
      · simp [mapInsert, h, h2, lookupS]
      · simp [mapInsert, h, h2, lookupS, ih]

theorem lookupS_mapInsert_ne {α : Type} (m : List (String × α)) (k k2 : String) (v : α)
    (h : k2 ≠ k) : lookupS (mapInsert m k v) k2 = lookupS m k2 := by
  induction m with
  | nil => simp [mapInsert, lookupS, h]
  | cons p rest ih =>
    obtain ⟨k0, v0⟩ := p
    by_cases h1 : k = k0
    · subst h1; simp [mapInsert, lookupS, h]
    · by_cases h2 : strLt k k0 = true
      · simp [mapInsert, h1, h2, lookupS, h]
      · by_cases h3 : k2 = k0
        · subst h3; simp [mapInsert, h1, h2, lookupS]
        · simp [mapInsert, h1, h2, lookupS, h3, ih]

theorem mem_mapInsert {α : Type} {m : List (String × α)} {k : String} {v : α}
    {p : String × α} (h : p ∈ mapInsert m k v) : p ∈ m ∨ p = (k, v) := by
  induction m with
  | nil =>
    rw [mapInsert] at h
    exact Or.inr (List.mem_singleton.mp h)
  | cons q rest ih =>
    obtain ⟨k0, v0⟩ := q
    by_cases h1 : k = k0
    · subst h1
      rw [mapInsert, if_pos rfl] at h
      rcases List.mem_cons.mp h with h2 | h2
      · exact Or.inr h2
      · exact Or.inl (List.mem_cons_of_mem _ h2)
    · by_cases h2 : strLt k k0 = true
      · rw [mapInsert, if_neg h1, if_pos h2] at h
        rcases List.mem_cons.mp h with h3 | h3
        · exact Or.inr h3
        · exact Or.inl h3
      · rw [mapInsert, if_neg h1, if_neg h2] at h
        rcases List.mem_cons.mp h with h3 | h3
        · exact Or.inl (by rw [h3]; exact List.mem_cons_self _ _)
        · rcases ih h3 with h4 | h4
          · exact Or.inl (List.mem_cons_of_mem _ h4)
          · exact Or.inr h4

theorem keys_mem_mapInsert {α : Type} (m : List (String × α)) (k x : String) (v : α) :
    x ∈ (mapInsert m k v).map Prod.fst ↔ x = k ∨ x ∈ m.map Prod.fst := by
  induction m with
  | nil => simp [mapInsert]
  | cons q rest ih =>
    obtain ⟨k0, v0⟩ := q
    by_cases h1 : k = k0
    · subst h1; simp [mapInsert]
    · by_cases h2 : strLt k k0 = true
      · simp [mapInsert, h1, h2]
      · simp only [mapInsert, if_neg h1, if_neg h2, List.map_cons, List.mem_cons, ih]
        tauto

theorem mapInsert_sorted {α : Type} {m : List (String × α)} (k : String) (v : α)
    (hs : m.Pairwise (fun p q => strLt p.1 q.1 = true)) :
    (mapInsert m k v).Pairwise (fun p q => strLt p.1 q.1 = true) := by
  induction m with
  | nil => simp [mapInsert]
  | cons q rest ih =>
    obtain ⟨k0, v0⟩ := q
    rw [List.pairwise_cons] at hs
    obtain ⟨h0, hrest⟩ := hs
    by_cases h1 : k = k0
    · subst h1
      rw [mapInsert, if_pos rfl, List.pairwise_cons]
      exact ⟨h0, hrest⟩
    · by_cases h2 : strLt k k0 = true
      · rw [mapInsert, if_neg h1, if_pos h2, List.pairwise_cons]
        constructor
        · intro p hp
          rcases List.mem_cons.mp hp with h3 | h3
          · rw [h3]; exact h2
          · exact strLt_trans h2 (h0 p h3)
        · rw [List.pairwise_cons]; exact ⟨h0, hrest⟩
      · have h3 : strLt k0 k = true := by
          rcases strLt_total k k0 with h4 | h4 | h4
          · exact absurd h4 h1
          · exact absurd h4 h2
          · exact h4
        rw [mapInsert, if_neg h1, if_neg h2, List.pairwise_cons]
        constructor
        · intro p hp
          rcases mem_mapInsert hp with h4 | h4
          · exact h0 p h4
          · rw [h4]; exact h3
        · exact ih hrest

theorem sorted_keys_nodup {α : Type} {m : List (String × α)}
    (hs : m.Pairwise (fun p q => strLt p.1 q.1 = true)) :
    (m.map Prod.fst).Nodup := by
  rw [List.Nodup, List.pairwise_map]
  exact hs.imp (fun h => strLt_ne h)

theorem foldl_mapInsert_sorted {α : Type} (ps : List (String × α))
    (m : List (String × α)) (hs : m.Pairwise (fun p q => strLt p.1 q.1 = true)) :
    (ps.foldl (fun acc p => mapInsert acc p.1 p.2) m).Pairwise
      (fun p q => strLt p.1 q.1 = true) := by
  induction ps generalizing m with
  | nil => exact hs
  | cons q tl ih => exact ih _ (mapInsert_sorted q.1 q.2 hs)

theorem mem_foldl_mapInsert {α : Type} {ps : List (String × α)}
    {m : List (String × α)} {p : String × α}
    (h : p ∈ ps.foldl (fun acc q => mapInsert acc q.1 q.2) m) : p ∈ m ∨ p ∈ ps := by
  induction ps generalizing m with
  | nil => exact Or.inl h
  | cons q tl ih =>
    rcases ih h with h2 | h2
    · rcases mem_mapInsert h2 with h3 | h3
      · exact Or.inl h3
      · right; rw [h3]; exact List.mem_cons_self _ _
    · right; exact List.mem_cons_of_mem _ h2

theorem lookupS_foldl_mapInsert (ps : List (String × String))
    (m : List (String × String)) (f : String) :
    lookupS (ps.foldl (fun acc p => mapInsert acc p.1 p.2) m) f
      = (lastFileFor ps f).or (lookupS m f) := by
  induction ps generalizing m with
  | nil => simp [lastFileFor]
  | cons q tl ih =>
    obtain ⟨k, v⟩ := q
    have hR : lastFileFor ((k, v) :: tl) f
        = (lastFileFor tl f).or (if k = f then some v else none) := by
      simp only [lastFileFor, List.reverse_cons, List.find?_append]
      rcases hfind : tl.reverse.find? (fun p => p.1 == f) with _ | q2
      · by_cases hkf : k = f <;> simp [List.find?_cons, hkf, hfind, Option.or]
      · simp [hfind, Option.or]
    rw [List.foldl_cons, ih, hR]
    rcases h2 : lastFileFor tl f with _ | w
    · simp only [Option.or]
      by_cases hkf : k = f
      · subst hkf
        simp [lookupS_mapInsert_self, Option.or]
      · have hne : f ≠ k := fun hc => hkf hc.symm
        rw [lookupS_mapInsert_ne m k f v hne]
        simp [hkf, Option.or]
    · simp [Option.or]

/-! ## Lemmas on the emission loop -/

theorem emitOne_ok (env : Env) (sol : Solution) (stg : CompilerSettings)
    (fmt fname : String) (hfile : fname = "-" ∨ env.fileOk fname = true)
    (he : elemBytesValid stg = true) (hf : sol.formatOk fmt = true) :
    emitOne env sol stg fmt fname = Except.ok (destOf fname) := by
  by_cases h2 : fname = "-"
  · subst h2; simp [emitOne, destOf, formatTo, he, hf]
  · rcases hfile with h | h
    · exact absurd h h2
    · simp [emitOne, destOf, formatTo, he, hf, h, h2]

theorem emitAll_ok (env : Env) (sol : Solution) (stg : CompilerSettings)
    (m : List (String × String))
    (h : ∀ p ∈ m, (p.2 = "-" ∨ env.fileOk p.2 = true) ∧ sol.formatOk p.1 = true)
    (he : elemBytesValid stg = true) :
    emitAll env sol stg m = (m.map (fun p => (p.1, destOf p.2)), none) := by
  induction m with
  | nil => rfl
  | cons q rest ih =>
    obtain ⟨fmt, fname⟩ := q
    have hq := h (fmt, fname) (List.mem_cons_self _ _)
    have hr := ih (fun p hp => h p (List.mem_cons_of_mem _ hp))
    simp [emitAll, emitOne_ok env sol stg fmt fname hq.1 he hq.2, hr]

/-! ## Lemmas on the radius handling -/

theorem applyRadius_of_neg (sol : Solution) (r : Int) (n : String) (h : r < 0) :
    applyRadius sol r n = Except.ok sol.defaultRadius := by
  unfold applyRadius
  by_cases h1 : sol.hasRadius <;> simp [h1, not_le.mpr h]

theorem applyRadius_error_shape (sol : Solution) (r : Int) (n msg : String)
    (h : applyRadius sol r n = Except.error msg) : ∃ t, msg = "Error: " ++ t := by
  unfold applyRadius at h
  split_ifs at h <;> try cases h
  refine ⟨ "invalid radius=" ++ toString r ++ (" for stencil type \x27" ++ (n ++ "\x27.")), ?_⟩
  have hsplit : ("Error: invalid radius=" : String) = "Error: " ++ "invalid radius=" := by decide
  rw [hsplit]
  simp only [String.append_assoc]

/-! ## Step lemmas for the option-scanning loop -/

theorem parseLoop_cons (st : ParseState) (a : String) (rest : List String) :
    parseLoop st (a :: rest) =
      (if isOptArg a = false then
        LoopOut.err ("Error: unrecognized parameter \x27" ++ a ++ "\x27.")
      else if isHelpOpt a then LoopOut.help
      else if isFlagOpt a then
        parseLoop { st with settings := applyFlag a st.settings } rest
      else
        match rest with
        | [] => LoopOut.err ("Error: value missing or bad option \x27" ++ a ++ "\x27.")
        | v :: rest2 =>
          if a = "-p" then
            match rest2 with
            | [] =>
              LoopOut.err ("Error: filename missing after \x27" ++ a ++ " " ++ v ++ "\x27.")
            | f :: rest3 =>
              parseLoop { st with outfiles := mapInsert st.outfiles v f } rest3
          else
            match valueOptUpdate st a v with
            | some st2 => parseLoop st2 rest2
            | none => LoopOut.err ("Error: option \x27" ++ a ++ "\x27 not recognized.")) := by
  cases rest with
  | nil => rfl
  | cons v rest2 =>
    cases rest2 with
    | nil => rfl
    | cons f rest3 => rfl

theorem scanSolutionName_cons (cur : String) (a : String) (rest : List String) :
    scanSolutionName cur (a :: rest) =
      (if isOptArg a = false then cur
      else if isHelpOpt a then cur
      else if isFlagOpt a then scanSolutionName cur rest
      else
        match rest with
        | [] => cur
        | v :: rest2 =>
          if a = "-p" then
            match rest2 with
            | [] => cur
            | _ :: rest3 => scanSolutionName cur rest3
          else if a = "-stencil" then scanSolutionName v rest2
          else scanSolutionName cur rest2) := by
  cases rest with
  | nil => rfl
  | cons v rest2 =>
    cases rest2 with
    | nil => rfl
    | cons f rest3 => rfl

theorem scanSolutionName_step_value (cur a v : String) (rest2 : List String)
    (h1 : isOptArg a = true) (h2 : isHelpOpt a = false) (h3 : isFlagOpt a = false)
    (h4 : a ≠ "-p") (h5 : a ≠ "-stencil") :
    scanSolutionName cur (a :: v :: rest2) = scanSolutionName cur rest2 := by
  rw [scanSolutionName_cons]
  simp [h1, h2, h3, h4, h5]

theorem scanSolutionName_step_stencil (cur v : String) (rest2 : List String) :
    scanSolutionName cur ("-stencil" :: v :: rest2) = scanSolutionName v rest2 := by
  have h1 : isOptArg "-stencil" = true := by decide
  have h2 : isHelpOpt "-stencil" = false := by decide
  have h3 : isFlagOpt "-stencil" = false := by decide
  have h4 : ("-stencil" : String) ≠ "-p" := by decide
  rw [scanSolutionName_cons]
  simp [h1, h2, h3, h4]

theorem parseLoop_step_nonopt (st : ParseState) (a : String) (rest : List String)
    (h1 : isOptArg a = false) :
    parseLoop st (a :: rest)
      = .err ("Error: unrecognized parameter \x27" ++ a ++ "\x27.") := by
  rw [parseLoop_cons]
  simp [h1]

theorem parseLoop_step_help (st : ParseState) (a : String) (rest : List String)
    (h1 : isOptArg a = true) (h2 : isHelpOpt a = true) :
    parseLoop st (a :: rest) = .help := by
  rw [parseLoop_cons]
  simp [h1, h2]

theorem parseLoop_step_flag (st : ParseState) (a : String) (rest : List String)
    (h1 : isOptArg a = true) (h2 : isHelpOpt a = false) (h3 : isFlagOpt a = true) :
    parseLoop st (a :: rest)
      = parseLoop { st with settings := applyFlag a st.settings } rest := by
  rw [parseLoop_cons]
  simp [h1, h2, h3]

theorem parseLoop_step_valmissing (st : ParseState) (a : String)
    (h1 : isOptArg a = true) (h2 : isHelpOpt a = false) (h3 : isFlagOpt a = false) :
    parseLoop st [a]
      = .err ("Error: value missing or bad option \x27" ++ a ++ "\x27.") := by
  rw [parseLoop_cons]
  simp [h1, h2, h3]

theorem parseLoop_step_fnmissing (st : ParseState) (v : String) :
    parseLoop st [ "-p", v ]
      = .err ("Error: filename missing after \x27" ++ "-p" ++ " " ++ v ++ "\x27.") := by
  have h1 : isOptArg "-p" = true := by decide
  have h2 : isHelpOpt "-p" = false := by decide
  have h3 : isFlagOpt "-p" = false := by decide
  rw [parseLoop_cons]
  simp [h1, h2, h3]

theorem parseLoop_step_p (st : ParseState) (v f : String) (rest3 : List String) :
    parseLoop st ("-p" :: v :: f :: rest3)
      = parseLoop { st with outfiles := mapInsert st.outfiles v f } rest3 := by
  have h1 : isOptArg "-p" = true := by decide
  have h2 : isHelpOpt "-p" = false := by decide
  have h3 : isFlagOpt "-p" = false := by decide
  rw [parseLoop_cons]
  simp [h1, h2, h3]

theorem parseLoop_step_value (st : ParseState) (a v : String) (rest2 : List String)
    (st2 : ParseState) (h1 : isOptArg a = true) (h2 : isHelpOpt a = false)
    (h3 : isFlagOpt a = false) (h4 : a ≠ "-p")
    (h5 : valueOptUpdate st a v = some st2) :
    parseLoop st (a :: v :: rest2) = parseLoop st2 rest2 := by
  rw [parseLoop_cons]
  simp [h1, h2, h3, h4, h5]

theorem parseLoop_step_notrecognized (st : ParseState) (a v : String)
    (rest2 : List String) (h1 : isOptArg a = true) (h2 : isHelpOpt a = false)
    (h3 : isFlagOpt a = false) (h4 : a ≠ "-p")
    (h5 : valueOptUpdate st a v = none) :
    parseLoop st (a :: v :: rest2)
      = .err ("Error: option \x27" ++ a ++ "\x27 not recognized.") := by
  rw [parseLoop_cons]
  simp [h1, h2, h3, h4, h5]

/-! ## Invariants along the option-scanning loop -/

theorem valueOptUpdate_some_solutionName {st : ParseState} {opt v : String}
    {st2 : ParseState} (h : valueOptUpdate st opt v = some st2) :
    st2.solutionName = if opt = "-stencil" then v else st.solutionName := by
  unfold valueOptUpdate at h
  dsimp only [] at h
  by_cases e1 : opt = "-stencil"
  · rw [if_pos e1] at h
    injection h with hh
    rw [← hh, if_pos e1]
  rw [if_neg e1] at h
  by_cases e2 : opt = "-vars"
  · rw [if_pos e2] at h
    injection h with hh
    rw [← hh, if_neg e1]
  rw [if_neg e2] at h
  by_cases e3 : opt = "-eq-bundles"
  · rw [if_pos e3] at h
    injection h with hh
    rw [← hh, if_neg e1]
  rw [if_neg e3] at h
  by_cases e4 : opt = "-step-dim"
  · rw [if_pos e4] at h
    injection h with hh
    rw [← hh, if_neg e1]
  rw [if_neg e4] at h
  by_cases e5 : opt = "-domain-dims"
  · rw [if_pos e5] at h
    injection h with hh
    rw [← hh, if_neg e1]
  rw [if_neg e5] at h
  by_cases e6 : opt = "-fold"
  · rw [if_pos e6] at h
    injection h with hh
    rw [← hh, if_neg e1]
  rw [if_neg e6] at h
  by_cases e7 : opt = "-cluster"
  · rw [if_pos e7] at h
    injection h with hh
    rw [← hh, if_neg e1]
  rw [if_neg e7] at h
  by_cases e8 : opt = "-max-es"
  · rw [if_pos e8] at h
    injection h with hh
    rw [← hh, if_neg e1]
  rw [if_neg e8] at h
  by_cases e9 : opt = "-min-es"
  · rw [if_pos e9] at h
    injection h with hh
    rw [← hh, if_neg e1]
  rw [if_neg e9] at h
  by_cases e10 : opt = "-radius"
  · rw [if_pos e10] at h
    injection h with hh
    rw [← hh, if_neg e1]
  rw [if_neg e10] at h
  by_cases e11 : opt = "-elem-bytes"
  · rw [if_pos e11] at h
    injection h with hh
    rw [← hh, if_neg e1]
  rw [if_neg e11] at h
  by_cases e12 : opt = "-ps"
  · rw [if_pos e12] at h
    injection h with hh
    rw [← hh, if_neg e1]
  rw [if_neg e12] at h
  by_cases e13 : opt = "-halo"
  · rw [if_pos e13] at h
    injection h with hh
    rw [← hh, if_neg e1]
  rw [if_neg e13] at h
  by_cases e14 : opt = "-step-alloc"
  · rw [if_pos e14] at h
    injection h with hh
    rw [← hh, if_neg e1]
  rw [if_neg e14] at h
  exact Option.noConfusion h

theorem parseLoop_err_shape (st : ParseState) (args : List String) :
    ∀ msg, parseLoop st args = .err msg → ∃ t, msg = "Error: " ++ t := by
  induction st, args using parseLoop.induct with
  | case1 st =>
    intro msg h
    rw [show parseLoop st [] = LoopOut.done st from rfl] at h
    exact LoopOut.noConfusion h
  | case2 st f rest3 hopt =>
    intro msg h
    rw [parseLoop_step_nonopt st f rest3 hopt] at h
    cases h
    refine ⟨ "unrecognized parameter \x27" ++ (f ++ "\x27."), ?_⟩
    have hsp : ("Error: unrecognized parameter \x27" : String)
        = "Error: " ++ "unrecognized parameter \x27" := by decide
    rw [hsp]
    simp only [String.append_assoc]
  | case3 st f rest3 h1 h2 =>
    intro msg h
    rw [parseLoop_step_help st f rest3 (by simpa using h1) h2] at h
    exact LoopOut.noConfusion h
  | case4 st f rest3 h1 h2 h3 ih =>
    intro msg h
    rw [parseLoop_step_flag st f rest3 (by simpa using h1) (by simpa using h2) h3] at h
    exact ih msg h
  | case5 st f h1 h2 h3 =>
    intro msg h
    rw [parseLoop_step_valmissing st f (by simpa using h1) (by simpa using h2)
      (by simpa using h3)] at h
    cases h
    refine ⟨ "value missing or bad option \x27" ++ (f ++ "\x27."), ?_⟩
    have hsp : ("Error: value missing or bad option \x27" : String)
        = "Error: " ++ "value missing or bad option \x27" := by decide
    rw [hsp]
    simp only [String.append_assoc]
  | case6 st f h1 h2 h3 =>
    intro msg h
    rw [parseLoop_step_fnmissing st f] at h
    cases h
    refine ⟨ ("filename missing after \x27" ++ "-p" ++ " ") ++ (f ++ "\x27."), ?_⟩
    have hsp : ("Error: filename missing after \x27" : String)
        = "Error: " ++ "filename missing after \x27" := by decide
    rw [hsp]
    simp only [String.append_assoc]
  | case7 st f f1 rest3 h1 h2 h3 ih =>
    intro msg h
    rw [parseLoop_step_p st f f1 rest3] at h
    exact ih msg h
  | case8 st f h1 h2 h3 f1 rest3 h4 st2 h5 ih =>
    intro msg h
    rw [parseLoop_step_value st f f1 rest3 st2 (by simpa using h1) (by simpa using h2)
      (by simpa using h3) h4 h5] at h
    exact ih msg h
  | case9 st f h1 h2 h3 f1 rest3 h4 h5 =>
    intro msg h
    rw [parseLoop_step_notrecognized st f f1 rest3 (by simpa using h1) (by simpa using h2)
      (by simpa using h3) h4 h5] at h
    cases h
    refine ⟨ "option \x27" ++ (f ++ "\x27 not recognized."), ?_⟩
    have hsp : ("Error: option \x27" : String) = "Error: " ++ "option \x27" := by decide
    rw [hsp]
    simp only [String.append_assoc]

theorem parseLoop_done_solutionName (st : ParseState) (args : List String) :
    ∀ stf, parseLoop st args = .done stf →
      stf.solutionName = scanSolutionName st.solutionName args := by
  induction st, args using parseLoop.induct with
  | case1 st =>
    intro stf h
    rw [show parseLoop st [] = LoopOut.done st from rfl] at h
    cases h
    rfl
  | case2 st f rest3 hopt =>
    intro stf h
    rw [parseLoop_step_nonopt st f rest3 hopt] at h
    exact LoopOut.noConfusion h
  | case3 st f rest3 h1 h2 =>
    intro stf h
    rw [parseLoop_step_help st f rest3 (by simpa using h1) h2] at h
    exact LoopOut.noConfusion h
  | case4 st f rest3 h1 h2 h3 ih =>
    intro stf h
    rw [parseLoop_step_flag st f rest3 (by simpa using h1) (by simpa using h2) h3] at h
    have hs := ih stf h
    rw [scanSolutionName_cons]
    simp only [h1, if_false, h3, if_true, if_neg h2]
    exact hs
  | case5 st f h1 h2 h3 =>
    intro stf h
    rw [parseLoop_step_valmissing st f (by simpa using h1) (by simpa using h2)
      (by simpa using h3)] at h
    exact LoopOut.noConfusion h
  | case6 st f h1 h2 h3 =>
    intro stf h
    rw [parseLoop_step_fnmissing st f] at h
    exact LoopOut.noConfusion h
  | case7 st f f1 rest3 h1 h2 h3 ih =>
    intro stf h
    rw [parseLoop_step_p st f f1 rest3] at h
    have hs := ih stf h
    rw [scanSolutionName_cons]
    norm_num [h1, h2, h3]
    exact hs
  | case8 st f h1 h2 h3 f1 rest3 h4 st2 h5 ih =>
    intro stf h
    rw [parseLoop_step_value st f f1 rest3 st2 (by simpa using h1) (by simpa using h2)
      (by simpa using h3) h4 h5] at h
    have hs := ih stf h
    have hname := valueOptUpdate_some_solutionName h5
    by_cases hst : f = "-stencil"
    · subst hst
      rw [if_pos rfl] at hname
      rw [scanSolutionName_step_stencil, hs, hname]
    · rw [if_neg hst] at hname
      rw [scanSolutionName_step_value st.solutionName f f1 rest3 (by simpa using h1)
        (by simpa using h2) (by simpa using h3) h4 hst, hs, hname]
  | case9 st f h1 h2 h3 f1 rest3 h4 h5 =>
    intro stf h
    rw [parseLoop_step_notrecognized st f f1 rest3 (by simpa using h1) (by simpa using h2)
      (by simpa using h3) h4 h5] at h
    exact LoopOut.noConfusion h

theorem scanSolutionName_const (cur : String) (args : List String) :
    "-stencil" ∉ args → scanSolutionName cur args = cur := by
  induction cur, args using scanSolutionName.induct with
  | case1 cur => intro _; rfl
  | case2 cur f rest3 hopt =>
    intro _
    rw [scanSolutionName_cons, if_pos hopt]
  | case3 cur f rest3 h1 h2 =>
    intro _
    rw [scanSolutionName_cons, if_neg h1, if_pos h2]
  | case4 cur f rest3 h1 h2 h3 ih =>
    intro hm
    rw [scanSolutionName_cons, if_neg h1, if_neg h2, if_pos h3]
    exact ih (fun hx => hm (List.mem_cons_of_mem _ hx))
  | case5 cur f h1 h2 h3 =>
    intro _
    rw [scanSolutionName_cons, if_neg h1, if_neg h2, if_neg h3]
  | case6 cur f h1 h2 h3 =>
    intro _
    rfl
  | case7 cur f f1 rest3 h1 h2 h3 ih =>
    intro hm
    have hstep : scanSolutionName cur ("-p" :: f :: f1 :: rest3)
        = scanSolutionName cur rest3 := rfl
    rw [hstep]
    exact ih (fun hx => hm (List.mem_cons_of_mem _ (List.mem_cons_of_mem _
      (List.mem_cons_of_mem _ hx))))
  | case8 cur f rest3 h1 h2 h3 h4 ih =>
    intro hm
    exact absurd (List.mem_cons_self _ _) hm
  | case9 cur f h1 h2 h3 f1 rest3 h4 h5 ih =>
    intro hm
    rw [scanSolutionName_step_value cur f f1 rest3 (by simpa using h1) (by simpa using h2)
      (by simpa using h3) h4 h5]
    exact ih (fun hx => hm (List.mem_cons_of_mem _ (List.mem_cons_of_mem _ hx)))

theorem parseLoop_pArgs (st : ParseState) (ps : List (String × String)) :
    parseLoop st (pArgs ps)
      = .done { st with
          outfiles := ps.foldl (fun m p => mapInsert m p.1 p.2) st.outfiles } := by
  induction ps generalizing st with
  | nil => rfl
  | cons q tl ih =>
    obtain ⟨fmt, fn⟩ := q
    show parseLoop st ("-p" :: fmt :: fn :: pArgs tl) = _
    rw [parseLoop_step_p, ih]
    rfl

theorem finishParse_usageError_shape (stencils : List (String × Solution))
    (st : ParseState) (msg : String) (h : finishParse stencils st = .usageError msg) :
    ∃ t, msg = "Error: " ++ t := by
  unfold finishParse at h
  by_cases h1 : st.solutionName.length = 0
  · rw [if_pos h1] at h
    cases h
    exact ⟨ "solution not specified.", by decide⟩
  · rw [if_neg h1] at h
    rcases hl : lookupS stencils st.solutionName with _ | sol
    · rw [hl] at h
      simp only [ParseOutcome.usageError.injEq] at h
      refine ⟨ "unknown stencil solution \x27" ++ (st.solutionName ++ "\x27."), ?_⟩
      rw [← h]
      have hsp : ("Error: unknown stencil solution \x27" : String)
          = "Error: " ++ "unknown stencil solution \x27" := by decide
      rw [hsp]
      simp only [String.append_assoc]
    · rw [hl] at h
      dsimp only [] at h
      rcases hr : applyRadius sol st.radius st.solutionName with m2 | effR
      · rw [hr] at h
        dsimp only [] at h
        simp only [ParseOutcome.usageError.injEq] at h
        subst h
        exact applyRadius_error_shape sol st.radius st.solutionName m2 hr
      · rw [hr] at h
        dsimp only [] at h
        by_cases hd : sol.defineOk <;> simp [hd] at h

/-! ## Outcome lemmas for parseOpts and runMain -/

theorem parseOpts_usageError_shape (stencils : List (String × Solution))
    (args : List String) (msg : String)
    (h : parseOpts stencils args = .usageError msg) : ∃ t, msg = "Error: " ++ t := by
  unfold parseOpts at h
  by_cases he : args.isEmpty
  · rw [if_pos he] at h
    exact ParseOutcome.noConfusion h
  · rw [if_neg he] at h
    rcases hl : parseLoop initialState args with st | m | _
    · rw [hl] at h
      dsimp only [] at h
      exact finishParse_usageError_shape stencils st msg h
    · rw [hl] at h
      dsimp only [] at h
      simp only [ParseOutcome.usageError.injEq] at h
      subst h
      exact parseLoop_err_shape initialState args m hl
    · rw [hl] at h
      exact ParseOutcome.noConfusion h

theorem finishParse_no_soln (stencils : List (String × Solution)) (st : ParseState)
    (h : lookupS stencils st.solutionName = none ∨ st.solutionName = "") :
    ∃ msg, finishParse stencils st = .usageError msg := by
  unfold finishParse
  by_cases h1 : st.solutionName.length = 0
  · rw [if_pos h1]
    exact ⟨_, rfl⟩
  · rw [if_neg h1]
    rcases h with h | h
    · rw [h]
      exact ⟨_, rfl⟩
    · exact absurd (by rw [h]; rfl) h1

theorem parseOpts_no_soln (stencils : List (String × Solution)) (args : List String)
    (h : "-stencil" ∉ args ∨ lookupS stencils (scanSolutionName "" args) = none) :
    (∃ msg, parseOpts stencils args = .usageError msg)
      ∨ parseOpts stencils args = .help := by
  unfold parseOpts
  by_cases he : args.isEmpty
  · rw [if_pos he]
    exact Or.inr rfl
  · rw [if_neg he]
    rcases hl : parseLoop initialState args with st | m | _
    · left
      have hname := parseLoop_done_solutionName initialState args st hl
      rcases h with h | h
      · refine finishParse_no_soln stencils st (Or.inr ?_)
        rw [hname]
        exact scanSolutionName_const "" args h
      · refine finishParse_no_soln stencils st (Or.inl ?_)
        rw [hname]
        exact h
    · exact Or.inl ⟨m, rfl⟩
    · exact Or.inr rfl

theorem runMain_eq_usageError (env : Env) (cmd : String) (args : List String)
    (msg : String) (h : parseOpts env.stencils args = .usageError msg) :
    runMain env cmd args
      = { exitCode := 1, stderrLines := [msg], helpShown := true, artifacts := [] } := by
  unfold runMain
  rw [h]

theorem runMain_eq_help (env : Env) (cmd : String) (args : List String)
    (h : parseOpts env.stencils args = .help) :
    runMain env cmd args
      = { exitCode := 1, stderrLines := [], helpShown := true, artifacts := [] } := by
  unfold runMain
  rw [h]

theorem runMain_eq_thrown (env : Env) (cmd : String) (args : List String)
    (msg : String) (h : parseOpts env.stencils args = .thrown msg) :
    runMain env cmd args
      = { exitCode := 1,
          stderrLines := ["YASK Stencil Compiler: " ++ msg ++ "."],
          helpShown := false, artifacts := [] } := by
  unfold runMain
  rw [h]

theorem runMain_eq_ok_err (env : Env) (cmd : String) (args : List String)
    (sol : Solution) (st : ParseState) (effR : Int) (m : String)
    (h : parseOpts env.stencils args = .ok sol st effR)
    (h2 : (emitAll env sol st.settings st.outfiles).2 = some m) :
    runMain env cmd args
      = { exitCode := 1,
          stderrLines := ["YASK Stencil Compiler: " ++ m ++ "."],
          helpShown := false,
          artifacts := (emitAll env sol st.settings st.outfiles).1 } := by
  unfold runMain
  rw [h]
  dsimp only []
  rw [h2]

theorem runMain_eq_ok_none (env : Env) (cmd : String) (args : List String)
    (sol : Solution) (st : ParseState) (effR : Int)
    (h : parseOpts env.stencils args = .ok sol st effR)
    (h2 : (emitAll env sol st.settings st.outfiles).2 = none) :
    runMain env cmd args
      = { exitCode := 0, stderrLines := [], helpShown := false,
          artifacts := (emitAll env sol st.settings st.outfiles).1 } := by
  unfold runMain
  rw [h]
  dsimp only []
  rw [h2]

/-! ## Arithmetic lemmas for the block and compare models -/

theorem loopChunksF_chunk (step : Int) (_hstep : 0 < step) :
    ∀ (fuel : Nat) (b e : Int), step ∣ (e - b) →
      ∀ p ∈ loopChunksF fuel b e step, p.2 = p.1 + step := by
  intro fuel
  induction fuel with
  | zero =>
    intro b e _ p hp
    simp [loopChunksF] at hp
  | succ fuel ih =>
    intro b e hdvd p hp
    rw [loopChunksF] at hp
    by_cases hbe : b < e
    · rw [if_pos hbe] at hp
      rcases List.mem_cons.mp hp with h | h
    
      · have h1 : step ≤ e - b := Int.le_of_dvd (by omega) hdvd
        rw [h]
        simp [min_eq_left (by omega : b + step ≤ e)]
      · refine ih (b + step) e ?_ p h
        have h2 : e - (b + step) = (e - b) - step := by ring
        rw [h2]
        exact dvd_sub hdvd (dvd_refl step)
    · rw [if_neg hbe] at hp
      simp at hp

theorem loopChunks_chunk (b e step : Int) (hstep : 0 < step)
    (hdvd : step ∣ (e - b)) :
    ∀ p ∈ loopChunks b e step, p.2 = p.1 + step :=
  loopChunksF_chunk step hstep (e - b).toNat b e hdvd

theorem foldl_add_range (n : Nat) (g : Nat → Nat) :
    (List.range n).foldl (fun a i => a + g i) 0 = ∑ i ∈ Finset.range n, g i := by
  induction n with
  | zero => simp
  | succ n ih =>
    rw [List.range_succ, List.foldl_append, ih, Finset.sum_range_succ]
    simp


/-! ## Claims -/

/-- C1: for every invocation of the compiler executable, the process exit
code is 0 when compilation and emission succeed and 1 on any error (a
missing or unknown stencil name, an unrecognized or malformed option, or a
failure raised during compilation or output): runMain only ever exits with
0 or 1, and it exits 0 exactly when nothing was reported on stderr and the
help-and-exit path of usage() was not taken. -/
theorem c1_exit_codes (env : Env) (cmd : String) (args : List String) :
    ((runMain env cmd args).exitCode = 0 ∨ (runMain env cmd args).exitCode = 1)
    ∧ ((runMain env cmd args).exitCode = 0 ↔
        (runMain env cmd args).stderrLines = []
          ∧ (runMain env cmd args).helpShown = false) := by
  rcases hp : parseOpts env.stencils args with msg | _ | msg | ⟨sol, st, effR⟩
  · rw [runMain_eq_usageError env cmd args msg hp]
    simp
  · rw [runMain_eq_help env cmd args hp]
    simp
  · rw [runMain_eq_thrown env cmd args msg hp]
    simp
  · rcases h2 : (emitAll env sol st.settings st.outfiles).2 with _ | m
    · rw [runMain_eq_ok_none env cmd args sol st effR hp h2]
      simp
    · rw [runMain_eq_ok_err env cmd args sol st effR m hp h2]
      simp

/-- C2 counterexample: the invocation with the single argument -stencil
fails, and its stderr line starts with the fixed token Error:, not with
the tool name (neither the executable name yfc nor the banner name YASK
Stencil Compiler). -/
theorem c2_counterexample :
    (runMain envEmpty "yfc" [ "-stencil" ]).exitCode = 1
    ∧ (runMain envEmpty "yfc" [ "-stencil" ]).stderrLines
        = [ "Error: value missing or bad option \x27-stencil\x27." ]
    ∧ ("Error: value missing or bad option \x27-stencil\x27.").data.take 3
        ≠ ("yfc").data
    ∧ ("Error: value missing or bad option \x27-stencil\x27.").data.take 21
        ≠ ("YASK Stencil Compiler").data := by
  refine ⟨by decide, by decide, by decide, by decide⟩

/-- C2 amended: every failing invocation reports at most one line on
stderr; an option-parsing error is a single line prefixed with Error: and
naming the offending identifier, while a yask_exception caught at top
level is a single line prefixed with the tool name YASK Stencil Compiler.
Help text is emitted on stdout (helpShown), and the no-argument and help
invocations print help with no stderr line at all. -/
theorem c2_stderr_lines (env : Env) (cmd : String) (args : List String) :
    (runMain env cmd args).stderrLines.length ≤ 1
    ∧ ∀ l ∈ (runMain env cmd args).stderrLines,
        (∃ t, l = "Error: " ++ t) ∨ (∃ t, l = "YASK Stencil Compiler: " ++ t) := by
  rcases hp : parseOpts env.stencils args with msg | _ | msg | ⟨sol, st, effR⟩
  · rw [runMain_eq_usageError env cmd args msg hp]
    refine ⟨by simp, ?_⟩
    intro l hl
    rw [List.mem_singleton.mp hl]
    exact Or.inl (parseOpts_usageError_shape env.stencils args msg hp)
  · rw [runMain_eq_help env cmd args hp]
    exact ⟨by simp, by simp⟩
  · rw [runMain_eq_thrown env cmd args msg hp]
    refine ⟨by simp, ?_⟩
    intro l hl
    rw [List.mem_singleton.mp hl]
    refine Or.inr ⟨msg ++ ".", ?_⟩
    rw [String.append_assoc]
  · rcases h2 : (emitAll env sol st.settings st.outfiles).2 with _ | m
    · rw [runMain_eq_ok_none env cmd args sol st effR hp h2]
      simp
    · rw [runMain_eq_ok_err env cmd args sol st effR m hp h2]
      refine ⟨by simp, ?_⟩
      intro l hl
      rw [List.mem_singleton.mp hl]
      refine Or.inr ⟨m ++ ".", ?_⟩
      rw [String.append_assoc]

/-- C2 witness. -/
theorem c2_stderr_lines_witness :
    (runMain envEmpty "yfc" [ "-stencil" ]).stderrLines.length ≤ 1
    ∧ ((∃ t, "Error: value missing or bad option \x27-stencil\x27."
          = "Error: " ++ t)
        ∨ (∃ t, "Error: value missing or bad option \x27-stencil\x27."
          = "YASK Stencil Compiler: " ++ t)) :=
  ⟨(c2_stderr_lines envEmpty "yfc" [ "-stencil" ]).1,
   (c2_stderr_lines envEmpty "yfc" [ "-stencil" ]).2
     "Error: value missing or bad option \x27-stencil\x27." (by decide)⟩

/-- C3: the -stencil option is required and its value must name a
registered solution: every invocation in which -stencil is absent, or in
which the scanned solution name is not in the registry, exits with code 1,
reports the failure (the help text is printed, preceded by an error line
on all paths but the bare help request), and emits no artifact. -/
theorem c3_stencil_required (env : Env) (cmd : String) (args : List String)
    (h : "-stencil" ∉ args
      ∨ lookupS env.stencils (scanSolutionName "" args) = none) :
    (runMain env cmd args).exitCode = 1
    ∧ (runMain env cmd args).artifacts = []
    ∧ (runMain env cmd args).helpShown = true := by
  rcases parseOpts_no_soln env.stencils args h with ⟨msg, hp⟩ | hp
  · rw [runMain_eq_usageError env cmd args msg hp]
    exact ⟨rfl, rfl, rfl⟩
  · rw [runMain_eq_help env cmd args hp]
    exact ⟨rfl, rfl, rfl⟩

/-- C3 witness. -/
theorem c3_stencil_required_witness :
    (runMain env0 "yfc" [ "-fus" ]).exitCode = 1
    ∧ (runMain env0 "yfc" [ "-fus" ]).artifacts = []
    ∧ (runMain env0 "yfc" [ "-fus" ]).helpShown = true :=
  c3_stencil_required env0 "yfc" [ "-fus" ] (Or.inl (by decide))

/-- C5 counterexample: an invocation that contains -h but consumes it as
the FILE argument of a -p pair does not print help and does not exit 1; it
succeeds with exit code 0 and writes the artifact to a file named -h. -/
theorem c5_counterexample :
    ("-h" ∈ [ "-stencil", "s", "-p", "pseudo", "-h" ])
    ∧ runMain env0 "yfc" [ "-stencil", "s", "-p", "pseudo", "-h" ]
        = { exitCode := 0, stderrLines := [], helpShown := false,
            artifacts := [("pseudo", Dest.file "-h")] } :=
  ⟨by decide, by rfl⟩

/-- C5 amended: whenever -h is scanned in option position (not consumed as
the value of a preceding value-taking option), the scanning loop stops
with the help outcome, so any invocation whose first argument is -h prints
the help message on stdout and exits with code 1. -/
theorem c5_help_option :
    (∀ (st : ParseState) (rest : List String),
        parseLoop st ("-h" :: rest) = LoopOut.help)
    ∧ ∀ (env : Env) (cmd : String) (rest : List String),
        runMain env cmd ("-h" :: rest)
          = { exitCode := 1, stderrLines := [], helpShown := true,
              artifacts := [] } := by
  constructor
  · intro st rest
    exact parseLoop_step_help st "-h" rest (by decide) (by decide)
  · intro env cmd rest
    refine runMain_eq_help env cmd ("-h" :: rest) ?_
    unfold parseOpts
    rw [if_neg (by simp)]
    rw [parseLoop_step_help initialState "-h" rest (by decide) (by decide)]

/-- C9: constructing a second solution under a name already present in the
process-wide registry throws the already-defined yask_exception and leaves
the registry untouched; otherwise the new solution is registered under its
name and every other name maps as before. -/
theorem c9_registry_unique (m : List (String × Solution)) (name : String)
    (soln : Solution) :
    ((lookupS m name).isSome = true →
      yc_solution_base_ctor name soln m
        = (Except.error ("Error: stencil \x27" ++ name ++ "\x27 already defined"), m))
    ∧ ((lookupS m name).isSome = false →
      (yc_solution_base_ctor name soln m).1 = Except.ok ()
      ∧ lookupS (yc_solution_base_ctor name soln m).2 name = some soln
      ∧ ∀ k, k ≠ name →
          lookupS (yc_solution_base_ctor name soln m).2 k = lookupS m k) := by
  constructor
  · intro h
    unfold yc_solution_base_ctor
    rw [if_pos h]
  · intro h
    unfold yc_solution_base_ctor
    rw [if_neg (by simp [h])]
    refine ⟨rfl, lookupS_mapInsert_self m name soln, ?_⟩
    intro k hk
    exact lookupS_mapInsert_ne m name k soln hk

/-- C9 witness. -/
theorem c9_registry_unique_witness :
    lookupS (yc_solution_base_ctor "a" sol0 []).2 "a" = some sol0 :=
  ((c9_registry_unique [] "a" sol0).2 rfl).2.1

/-- C10: StencilContext compare is the sum, over the indices of the
calling context grid list, of the per-grid mis-compare counts, counting
exactly 1 for each index past the end of the reference grid list; grids
present only in the reference contribute nothing (appending extra grids to
a reference at least as long changes nothing); a caller with no grids
compares as 0 against any reference; and the function is asymmetric. -/
theorem c10_compare_sum :
    (∀ (gcmp : Grid → Grid → Nat) (self ref : StencilContext),
      StencilContext.compare gcmp self ref
        = ∑ gi ∈ Finset.range self.gridPtrs.length,
            (if ref.gridPtrs.length ≤ gi then 1
             else gcmp (self.gridPtrs.getD gi defaultGrid)
                    (ref.gridPtrs.getD gi defaultGrid)))
    ∧ (∀ (gcmp : Grid → Grid → Nat) (nm : String) (ref : StencilContext),
        StencilContext.compare gcmp { name := nm, gridPtrs := [] } ref = 0)
    ∧ (∀ (gcmp : Grid → Grid → Nat) (self ref : StencilContext)
        (extra : List Grid), self.gridPtrs.length ≤ ref.gridPtrs.length →
        StencilContext.compare gcmp self
            { name := ref.name, gridPtrs := ref.gridPtrs ++ extra }
          = StencilContext.compare gcmp self ref)
    ∧ ∃ (gcmp : Grid → Grid → Nat) (a b : StencilContext),
        StencilContext.compare gcmp a b ≠ StencilContext.compare gcmp b a := by
  have hsum : ∀ (gcmp : Grid → Grid → Nat) (self ref : StencilContext),
      StencilContext.compare gcmp self ref
        = ∑ gi ∈ Finset.range self.gridPtrs.length,
            (if ref.gridPtrs.length ≤ gi then 1
             else gcmp (self.gridPtrs.getD gi defaultGrid)
                    (ref.gridPtrs.getD gi defaultGrid)) := by
    intro gcmp self ref
    unfold StencilContext.compare
    rw [← foldl_add_range self.gridPtrs.length
      (fun gi => if ref.gridPtrs.length ≤ gi then 1
        else gcmp (self.gridPtrs.getD gi defaultGrid)
              (ref.gridPtrs.getD gi defaultGrid))]
    congr 1
    funext errs gi
    by_cases h : ref.gridPtrs.length ≤ gi <;> simp [h]
  refine ⟨hsum, ?_, ?_, ?_⟩
  · intro gcmp nm ref
    rw [hsum]
    simp
  · intro gcmp self ref extra hlen
    rw [hsum, hsum]
    apply Finset.sum_congr rfl
    intro gi hgi
    rw [Finset.mem_range] at hgi
    have hgi2 : gi < ref.gridPtrs.length := lt_of_lt_of_le hgi hlen
    have h1 : ¬ (ref.gridPtrs.length ≤ gi) := by omega
    have h2 : ¬ ((ref.gridPtrs ++ extra).length ≤ gi) := by
      rw [List.length_append]
      omega
    rw [if_neg h1, if_neg h2]
    rw [List.getD_append ref.gridPtrs extra defaultGrid gi hgi2]
  · refine ⟨fun _ _ => 0, { name := "a", gridPtrs := [] },
      { name := "b", gridPtrs := [defaultGrid] }, ?_⟩
    decide

/-- C10 witness. -/
theorem c10_compare_sum_witness :
    StencilContext.compare (fun _ _ => 1)
        { name := "x", gridPtrs := [defaultGrid] }
        { name := "y", gridPtrs := [defaultGrid, defaultGrid] }
      = StencilContext.compare (fun _ _ => 1)
        { name := "x", gridPtrs := [defaultGrid] }
        { name := "y", gridPtrs := [defaultGrid] } :=
  c10_compare_sum.2.2.1 (fun _ _ => 1)
    { name := "x", gridPtrs := [defaultGrid] }
    { name := "y", gridPtrs := [defaultGrid] } [defaultGrid] (by decide)


/-! ## Pipeline lemmas for specific invocations -/

theorem parseLoop_step_stencil (st : ParseState) (s : String) (rest : List String) :
    parseLoop st ("-stencil" :: s :: rest)
      = parseLoop { st with solutionName := s } rest :=
  parseLoop_step_value st "-stencil" s rest { st with solutionName := s }
    (by decide) (by decide) (by decide) (by decide) rfl

theorem parseLoop_step_elem (st : ParseState) (v : String) (rest : List String) :
    parseLoop st ("-elem-bytes" :: v :: rest)
      = parseLoop
          { st with settings := { st.settings with _elem_bytes := atoi v } } rest :=
  parseLoop_step_value st "-elem-bytes" v rest
    { st with settings := { st.settings with _elem_bytes := atoi v } }
    (by decide) (by decide) (by decide) (by decide) rfl

theorem parseLoop_step_radius (st : ParseState) (v : String) (rest : List String) :
    parseLoop st ("-radius" :: v :: rest)
      = parseLoop { st with radius := atoi v } rest :=
  parseLoop_step_value st "-radius" v rest { st with radius := atoi v }
    (by decide) (by decide) (by decide) (by decide) rfl

theorem finishParse_found (stencils : List (String × Solution)) (st : ParseState)
    (sol : Solution) (hs : ¬ (st.solutionName.length = 0))
    (hreg : lookupS stencils st.solutionName = some sol)
    (hrad : st.radius < 0) (hdef : sol.defineOk = true) :
    finishParse stencils st = .ok sol st sol.defaultRadius := by
  unfold finishParse
  rw [if_neg hs, hreg]
  dsimp only []
  rw [applyRadius_of_neg sol st.radius st.solutionName hrad]
  dsimp only []
  simp [hdef]

theorem finishParse_badRadius (stencils : List (String × Solution)) (st : ParseState)
    (sol : Solution) (hs : ¬ (st.solutionName.length = 0))
    (hreg : lookupS stencils st.solutionName = some sol)
    (hhas : sol.hasRadius = true) (hnn : 0 ≤ st.radius)
    (hbad : sol.radiusOk st.radius = false) :
    finishParse stencils st
      = .usageError ("Error: invalid radius=" ++ toString st.radius ++
          " for stencil type \x27" ++ st.solutionName ++ "\x27.") := by
  have herr : applyRadius sol st.radius st.solutionName
      = Except.error ("Error: invalid radius=" ++ toString st.radius ++
          " for stencil type \x27" ++ st.solutionName ++ "\x27.") := by
    unfold applyRadius
    rw [hhas]
    simp [hnn, hbad]
  unfold finishParse
  rw [if_neg hs, hreg]
  dsimp only []
  rw [herr]

/-- C4 counterexample: two -p pairs naming the same format pseudo write
only one artifact (the later file b.txt wins, a.txt is never written), so
the claim of one artifact per pair fails on this invocation. -/
theorem c4_counterexample :
    runMain env0 "yfc"
        [ "-stencil", "s", "-p", "pseudo", "a.txt", "-p", "pseudo", "b.txt" ]
      = { exitCode := 0, stderrLines := [], helpShown := false,
          artifacts := [("pseudo", Dest.file "b.txt")] } := by
  rfl

/-- C4 amended: each -p FORMAT FILE pair records FORMAT mapping to FILE in
the format-keyed outfiles map, a later pair with the same FORMAT
overriding the earlier FILE; on a successful run exactly one artifact is
written per distinct FORMAT, in map order, the FILE of the last pair for
that format, with the filename dash directing that output to stdout. -/
theorem c4_artifact_per_format (env : Env) (cmd s : String) (sol : Solution)
    (ps : List (String × String)) (hs : ¬ (s.length = 0))
    (hreg : lookupS env.stencils s = some sol) (hdef : sol.defineOk = true)
    (hfmt : ∀ p ∈ ps, (p.2 = "-" ∨ env.fileOk p.2 = true) ∧ sol.formatOk p.1 = true) :
    runMain env cmd ("-stencil" :: s :: pArgs ps)
        = { exitCode := 0, stderrLines := [], helpShown := false,
            artifacts := (ps.foldl (fun m p => mapInsert m p.1 p.2) []).map
              (fun q => (q.1, destOf q.2)) }
    ∧ (∀ f, lookupS (ps.foldl (fun m p => mapInsert m p.1 p.2) []) f
        = lastFileFor ps f)
    ∧ ((ps.foldl (fun m p => mapInsert m p.1 p.2) []).map Prod.fst).Nodup := by
  have hLoop : parseLoop initialState ("-stencil" :: s :: pArgs ps)
      = .done { settings := initSettings,
                outfiles := ps.foldl (fun m p => mapInsert m p.1 p.2) [],
                solutionName := s, radius := -1, vlenForStats := 0 } := by
    rw [parseLoop_step_stencil initialState s (pArgs ps), parseLoop_pArgs]
    rfl
  have hParse : parseOpts env.stencils ("-stencil" :: s :: pArgs ps)
      = .ok sol { settings := initSettings,
                  outfiles := ps.foldl (fun m p => mapInsert m p.1 p.2) [],
                  solutionName := s, radius := -1, vlenForStats := 0 }
          sol.defaultRadius := by
    unfold parseOpts
    rw [if_neg (by simp), hLoop]
    dsimp only []
    exact finishParse_found env.stencils _ sol hs hreg (by norm_num) hdef
  have hE : emitAll env sol initSettings (ps.foldl (fun m p => mapInsert m p.1 p.2) [])
      = ((ps.foldl (fun m p => mapInsert m p.1 p.2) []).map
          (fun p => (p.1, destOf p.2)), none) := by
    refine emitAll_ok env sol initSettings _ ?_ rfl
    intro p hp
    rcases mem_foldl_mapInsert hp with hmem | hmem
    · exact absurd hmem (List.not_mem_nil p)
    · exact hfmt p hmem
  refine ⟨?_, ?_, ?_⟩
  · unfold runMain
    rw [hParse]
    dsimp only []
    rw [hE]
  · intro f
    rw [lookupS_foldl_mapInsert ps [] f]
    rcases lastFileFor ps f with _ | w <;> rfl
  · exact sorted_keys_nodup (foldl_mapInsert_sorted ps [] (by simp))

/-- C4 witness. -/
theorem c4_artifact_per_format_witness :
    runMain env0 "yfc" ("-stencil" :: "s" :: pArgs [("pseudo", "a.txt"), ("cpp", "-")])
      = { exitCode := 0, stderrLines := [], helpShown := false,
          artifacts := [("cpp", Dest.stdout), ("pseudo", Dest.file "a.txt")] } := by
  have h := (c4_artifact_per_format env0 "yfc" "s" sol0
    [("pseudo", "a.txt"), ("cpp", "-")] (by decide) rfl rfl (by decide)).1
  rw [h]
  rfl

/-- C6 counterexample: the invocation -stencil s -elem-bytes 5 is accepted
by the option parser and, with no output requested, the program exits 0
with no error at all, contradicting the claim that any value other than 4
or 8 is treated as a bad option with an error exit. -/
theorem c6_counterexample :
    runMain env0 "yfc" [ "-stencil", "s", "-elem-bytes", "5" ]
      = { exitCode := 0, stderrLines := [], helpShown := false, artifacts := [] } := by
  rfl

/-- C6 amended: the option parser accepts any integer value for
-elem-bytes and stores it in the settings; a value other than 4 or 8 is
diagnosed only downstream (Modelled from the spec: the library enforces
the usage-text restriction when format output is produced), reported as a
top-level yask_exception line on stderr with exit code 1 and no artifact;
with no -p request the invalid value goes undiagnosed. -/
theorem c6_elem_bytes (env : Env) (cmd s v fmt fn : String) (sol : Solution)
    (hs : ¬ (s.length = 0)) (hreg : lookupS env.stencils s = some sol)
    (hdef : sol.defineOk = true) (hv4 : atoi v ≠ 4) (hv8 : atoi v ≠ 8)
    (hfile : fn = "-" ∨ env.fileOk fn = true) :
    parseLoop initialState [ "-stencil", s, "-elem-bytes", v, "-p", fmt, fn ]
        = .done { settings := { initSettings with _elem_bytes := atoi v },
                  outfiles := [(fmt, fn)], solutionName := s, radius := -1,
                  vlenForStats := 0 }
    ∧ runMain env cmd [ "-stencil", s, "-elem-bytes", v, "-p", fmt, fn ]
        = { exitCode := 1,
            stderrLines := ["YASK Stencil Compiler: " ++
              ("Error: only 4 and 8 are allowed for elem-bytes, got " ++
                toString (atoi v)) ++ "."],
            helpShown := false, artifacts := [] } := by
  have hLoop : parseLoop initialState [ "-stencil", s, "-elem-bytes", v, "-p", fmt, fn ]
      = .done { settings := { initSettings with _elem_bytes := atoi v },
                outfiles := [(fmt, fn)], solutionName := s, radius := -1,
                vlenForStats := 0 } := by
    rw [parseLoop_step_stencil, parseLoop_step_elem, parseLoop_step_p]
    rfl
  refine ⟨hLoop, ?_⟩
  have hval : elemBytesValid { initSettings with _elem_bytes := atoi v } = false := by
    simp [elemBytesValid, hv4, hv8]
  have hone : emitOne env sol { initSettings with _elem_bytes := atoi v } fmt fn
      = Except.error ("Error: only 4 and 8 are allowed for elem-bytes, got " ++
          toString (atoi v)) := by
    by_cases hdash : fn = "-"
    · subst hdash
      simp [emitOne, formatTo, hval]
    · rcases hfile with h | h
      · exact absurd h hdash
      · simp [emitOne, formatTo, hval, hdash, h]
  have hAll : emitAll env sol { initSettings with _elem_bytes := atoi v } [(fmt, fn)]
      = ([], some ("Error: only 4 and 8 are allowed for elem-bytes, got " ++
          toString (atoi v))) := by
    simp [emitAll, hone]
  have hParse : parseOpts env.stencils [ "-stencil", s, "-elem-bytes", v, "-p", fmt, fn ]
      = .ok sol { settings := { initSettings with _elem_bytes := atoi v },
                  outfiles := [(fmt, fn)], solutionName := s, radius := -1,
                  vlenForStats := 0 } sol.defaultRadius := by
    unfold parseOpts
    rw [if_neg (by simp), hLoop]
    dsimp only []
    exact finishParse_found env.stencils _ sol hs hreg (by norm_num) hdef
  unfold runMain
  rw [hParse]
  dsimp only []
  rw [hAll]

/-- C6 witness. -/
theorem c6_elem_bytes_witness :
    runMain env0 "yfc" [ "-stencil", "s", "-elem-bytes", "5", "-p", "cpp", "-" ]
      = { exitCode := 1,
          stderrLines :=
            [ "YASK Stencil Compiler: Error: only 4 and 8 are allowed for elem-bytes, got 5." ],
          helpShown := false, artifacts := [] } := by
  have h := (c6_elem_bytes env0 "yfc" "s" "5" "cpp" "-" sol0 (by decide) rfl rfl
    (by decide) (by decide) (Or.inl rfl)).2
  rw [h]
  rfl

/-- C7: the -radius option sets the radius on radius-parameterized
stencils: for a radius-parameterized solution and a non-negative radius,
set_radius is applied (the effective radius becomes the given value); when
the solution rejects the value the driver reports the invalid-radius error
on stderr and the invocation exits with code 1 (help shown, no artifact). -/
theorem c7_radius_applied :
    (∀ (sol : Solution) (r : Int) (n : String), sol.hasRadius = true → 0 ≤ r →
      (sol.radiusOk r = true → applyRadius sol r n = Except.ok r)
      ∧ (sol.radiusOk r = false → applyRadius sol r n
          = Except.error ("Error: invalid radius=" ++ toString r ++
              " for stencil type \x27" ++ n ++ "\x27.")))
    ∧ ∀ (env : Env) (cmd s v : String) (sol : Solution),
        ¬ (s.length = 0) → lookupS env.stencils s = some sol →
        sol.hasRadius = true → 0 ≤ atoi v → sol.radiusOk (atoi v) = false →
        runMain env cmd [ "-stencil", s, "-radius", v ]
          = { exitCode := 1,
              stderrLines := ["Error: invalid radius=" ++ toString (atoi v) ++
                " for stencil type \x27" ++ s ++ "\x27."],
              helpShown := true, artifacts := [] } := by
  constructor
  · intro sol r n hhas hnn
    constructor
    · intro hok
      unfold applyRadius
      rw [hhas]
      simp [hnn, hok]
    · intro hbad
      unfold applyRadius
      rw [hhas]
      simp [hnn, hbad]
  · intro env cmd s v sol hs hreg hhas hnn hbad
    have hLoop : parseLoop initialState [ "-stencil", s, "-radius", v ]
        = .done { settings := initSettings, outfiles := [],
                  solutionName := s, radius := atoi v, vlenForStats := 0 } := by
      rw [parseLoop_step_stencil, parseLoop_step_radius]
      rfl
    have hParse : parseOpts env.stencils [ "-stencil", s, "-radius", v ]
        = .usageError ("Error: invalid radius=" ++ toString (atoi v) ++
            " for stencil type \x27" ++ s ++ "\x27.") := by
      unfold parseOpts
      rw [if_neg (by simp), hLoop]
      dsimp only []
      exact finishParse_badRadius env.stencils _ sol hs hreg hhas hnn hbad
    rw [runMain_eq_usageError env cmd _ _ hParse]

/-- C7 witness. -/
theorem c7_radius_applied_witness :
    applyRadius solR 2 "r" = Except.ok 2
    ∧ applyRadius solR 5 "r"
        = Except.error "Error: invalid radius=5 for stencil type \x27r\x27."
    ∧ runMain envR "yfc" [ "-stencil", "r", "-radius", "5" ]
        = { exitCode := 1,
            stderrLines := [ "Error: invalid radius=5 for stencil type \x27r\x27." ],
            helpShown := true, artifacts := [] } := by
  refine ⟨?_, ?_, ?_⟩
  · exact (c7_radius_applied.1 solR 2 "r" rfl (by decide)).1 (by decide)
  · have h := (c7_radius_applied.1 solR 5 "r" rfl (by decide)).2 (by decide)
    rw [h]
    rfl
  · have h := c7_radius_applied.2 envR "yfc" "r" "5" solR (by decide) rfl rfl
      (by decide) (by decide)
    rw [h]
    rfl

/-- C8: in calc_block the per-dimension vector step equals the cluster
length for that dimension (lines 237-240 of stencil_calc.hpp, visible in
calc_block passing the clen values as the loop steps), and whenever the
per-dimension vector ranges are whole multiples of the cluster lengths (no
partial step at this level, as the source comments state), every
calc_cluster invocation made by the block loops covers exactly one
cluster length per dimension, so the calc_cluster assertions hold. -/
theorem c8_cluster_steps (d : BlockDims)
    (begin_bn begin_bx begin_by begin_bz end_bn end_bx end_by end_bz : Int)
    (hn : 0 < d.clenN) (hx : 0 < d.clenX) (hy : 0 < d.clenY) (hz : 0 < d.clenZ)
    (hdn : d.clenN ∣ (idiv end_bn d.vlenN - idiv begin_bn d.vlenN))
    (hdx : d.clenX ∣ (idiv end_bx d.vlenX - idiv begin_bx d.vlenX))
    (hdy : d.clenY ∣ (idiv end_by d.vlenY - idiv begin_by d.vlenY))
    (hdz : d.clenZ ∣ (idiv end_bz d.vlenZ - idiv begin_bz d.vlenZ)) :
    ∀ iv ∈ calc_block d begin_bn begin_bx begin_by begin_bz
        end_bn end_bx end_by end_bz,
      calc_cluster_asserts d iv = true := by
  intro iv hiv
  simp only [calc_block, List.mem_flatMap, List.mem_map] at hiv
  obtain ⟨pn, hpn, px, hpx, py, hpy, pz, hpz, hiv⟩ := hiv
  have en := loopChunks_chunk _ _ _ hn hdn pn hpn
  have ex := loopChunks_chunk _ _ _ hx hdx px hpx
  have ey := loopChunks_chunk _ _ _ hy hdy py hpy
  have ez := loopChunks_chunk _ _ _ hz hdz pz hpz
  subst hiv
  simp [calc_cluster_asserts, en, ex, ey, ez]

/-- C8 witness. -/
theorem c8_cluster_steps_witness :
    calc_cluster_asserts
        { vlenN := 1, vlenX := 1, vlenY := 1, vlenZ := 1,
          clenN := 1, clenX := 1, clenY := 1, clenZ := 1 }
        { beginCnv := 0, beginCxv := 0, beginCyv := 0, beginCzv := 0,
          endCnv := 1, endCxv := 1, endCyv := 1, endCzv := 1 } = true :=
  c8_cluster_steps
    { vlenN := 1, vlenX := 1, vlenY := 1, vlenZ := 1,
      clenN := 1, clenX := 1, clenY := 1, clenZ := 1 }
    0 0 0 0 1 1 1 1 (by decide) (by decide) (by decide) (by decide)
    ⟨1, by decide⟩ ⟨1, by decide⟩ ⟨1, by decide⟩ ⟨1, by decide⟩
    { beginCnv := 0, beginCxv := 0, beginCyv := 0, beginCzv := 0,
      endCnv := 1, endCxv := 1, endCyv := 1, endCzv := 1 }
    (by decide)

end Yask
